/-
  Verification development for the BAnalyzer native boundary layer.

  Shallow embedding of:
  - src/BAnalyzerNative/DataConversionUtils.cpp (flat buffer <-> tensor-sequence codec),
  - src/BAnalyzerNative/RNN.cpp (RNN wrapper: construction, evaluate, train),
  - src/BAnalyzerNativeDll/NetInterface.cpp (C-linkage boundary functions).

  The external DeepLearning engine (MNet, RMLayer, tensors) is out of scope of
  the repository; only the narrow contract the wrapper relies on is modelled:
  `append_layer` records a layer with the given input/output shapes and returns
  the output shape, `in_size`/`out_size` return the first layer's input shape
  and the last layer's output shape, and the forward pass `act` is an abstract
  function passed as a parameter.  Double-precision scalars are modelled by
  `Int` (the wrapper only copies them, so any type with decidable equality is a
  faithful model of the bit-for-bit copy behaviour).

  C++ `int` values are modelled by `Int`; C++ `%` and `/` on `int` truncate
  toward zero, so they are modelled by `Int.tmod` and `Int.tdiv`.
-/
import Mathlib

namespace BAnalyzerNative

/-- Model of `DeepLearning::Index3d`: a triple of integer coordinates. -/
structure Index3d where
  x : Int
  y : Int
  z : Int
deriving Repr, DecidableEq

/-- `Index3d::coord_prod`: product of the three coordinates. -/
def Index3d.coord_prod (i : Index3d) : Int := i.x * i.y * i.z

/-- Model of `DeepLearning::Index4d`: a spatial shape `xyz` plus a time extent `w`. -/
structure Index4d where
  xyz : Index3d
  w : Int
deriving Repr, DecidableEq

/-- Modelled from the spec: one recurrent layer of the external engine, recorded
by its input and output shapes (the weight-initialization policy and the
nonlinearity are fixed design choices with no observable effect on the shapes,
so they are not carried). -/
structure RMLayer where
  inSize : Index4d
  outSize : Index4d
deriving Repr, DecidableEq

/-- Modelled from the spec: the external `MNet` engine as the ordered list of
layers appended to it. -/
structure MNet where
  layers : List RMLayer
deriving Repr, DecidableEq

/-- Modelled from the spec: `MNet::append_layer` appends one layer with the
given input/output shapes and returns the new layer's output shape (which the
wrapper threads into the next layer's input shape). -/
def MNet.append_layer (net : MNet) (inS outS : Index4d) : MNet × Index4d :=
  ({ layers := net.layers ++ [⟨inS, outS⟩] }, outS)

/-- Default shape used only as the out-of-domain value of the accessors below. -/
def dummyIndex4d : Index4d := ⟨⟨0, 0, 0⟩, 0⟩

/-- Modelled from the spec: `MNet::in_size` is the input shape of the first layer. -/
def MNet.in_size (net : MNet) : Index4d :=
  (net.layers.headD ⟨dummyIndex4d, dummyIndex4d⟩).inSize

/-- Modelled from the spec: `MNet::out_size` is the output shape of the last layer. -/
def MNet.out_size (net : MNet) : Index4d :=
  (net.layers.getLastD ⟨dummyIndex4d, dummyIndex4d⟩).outSize

/-- `MNet::layer_count`: number of layers. -/
def MNet.layer_count (net : MNet) : Int := net.layers.length

/-! ## DataConversionUtils (src/BAnalyzerNative/DataConversionUtils.cpp) -/

/-- `DataConversionUtils::fill_lazy_vector` ("unpack"): the destination lazy
vector has `n` items (its size is set by the caller before the call); item
`item_id` is resized to hold `item_size` scalars and receives the contiguous
chunk of `arr` starting at offset `item_id * item_size`.  The source advances a
raw pointer chunk by chunk; here each chunk is `(arr.drop (item_id * item_size)).take item_size`. -/
def DataConversionUtils.fill_lazy_vector (item_size : Nat) (arr : List Int) (n : Nat) :
    List (List Int) :=
  (List.range n).map fun item_id => (arr.drop (item_id * item_size)).take item_size

/-- `DataConversionUtils::pack_lazy_vector` ("pack"): writes each item of `src`
contiguously and in order into the destination buffer; the result is the
concatenation of the items. -/
def DataConversionUtils.pack_lazy_vector (src : List (List Int)) : List Int :=
  src.flatten

/-! ## RNN wrapper (src/BAnalyzerNative/RNN.cpp) -/

/-- Model of `BAnalyzerNative::RNN`: the wrapped net plus the cached plain
input/output sizes.  The reusable execution context carries no observable
state for the properties below and is omitted. -/
structure RNN where
  net : MNet
  plain_input_size : Int
  plain_output_size : Int
deriving Repr, DecidableEq

/-- `RNN::RNN(time_depth, layer_item_sizes_count, layer_item_sizes)`:
throws when the descriptor has fewer than 2 entries; otherwise appends one
recurrent layer per descriptor element from index 1 onward, threading each
layer's output shape into the next layer's input shape, every layer spanning
`time_depth` time steps; finally caches
`plain_input_size = in_size.xyz.coord_prod * in_size.w` and
`plain_output_size = out_size.xyz.coord_prod * out_size.w`. -/
def RNN.construct (time_depth : Int) (layer_item_sizes : List Int) : Except String RNN :=
  if layer_item_sizes.length < 2 then
    .error "Can't construct the net."
  else
    let init : Index4d := ⟨⟨1, 1, layer_item_sizes.headD 0⟩, time_depth⟩
    let step : MNet × Index4d → Int → MNet × Index4d := fun acc sz =>
      acc.1.append_layer acc.2 ⟨⟨1, 1, sz⟩, time_depth⟩
    let r := (layer_item_sizes.drop 1).foldl step (⟨[]⟩, init)
    .ok { net := r.1,
          plain_input_size := r.1.in_size.xyz.coord_prod * r.1.in_size.w,
          plain_output_size := r.1.out_size.xyz.coord_prod * r.1.out_size.w }

/-- Resize of a `LazyVector<double>` to `n` elements (new slots default-initialized). -/
def listResize (buf : List Int) (n : Nat) : List Int :=
  buf.take n ++ List.replicate (n - buf.length) 0

/-- Writing `data` through a raw pointer at the start of buffer `buf`
(overwrites the prefix in place; the buffer keeps its length). -/
def listOverwrite (buf data : List Int) : List Int :=
  data.take buf.length ++ buf.drop data.length

/-- `RNN::evaluate(size, input, output)`: throws when `size` differs from the
cached plain input size; otherwise unpacks `input` into a tensor sequence of
length `in_size.w` with items of `in_size.xyz.coord_prod` scalars, runs the
engine forward pass `act` (external, abstract), resizes `output` to
`plain_output_size` and packs the engine's output into it.  `const`: the
network's weights are not touched; the returned list is the final content of
the `output` container. -/
def RNN.evaluate (rnn : RNN) (act : List (List Int) → List (List Int))
    (size : Int) (input : List Int) (output : List Int) : Except String (List Int) :=
  if size ≠ rnn.plain_input_size then
    .error "Invalid input data."
  else
    let in_size := rnn.net.in_size
    let input_lazy :=
      DataConversionUtils.fill_lazy_vector in_size.xyz.coord_prod.toNat input in_size.w.toNat
    let out := act input_lazy
    .ok (listOverwrite (listResize output rnn.plain_output_size.toNat)
          (DataConversionUtils.pack_lazy_vector out))

/-- `RNN::train(in_aggregate_size, input_aggregate, ref_aggregate_size,
reference_aggregate, learning_rate)`: throws when either aggregate size is not
an exact multiple of the respective plain item size, or the implied pair counts
differ; otherwise splits both aggregates into `training_pair_count` aligned
tensor-sequence pairs (unpacking the chunk at offset `pair_id * plain_input_size`
resp. `pair_id * plain_output_size`) and invokes exactly one batched learning
step `_net.learn` over the whole set.  The engine's learning step is external;
the result returned here is the pair of batches handed to that single call. -/
def RNN.train (rnn : RNN) (in_aggregate_size : Int) (input_aggregate : List Int)
    (ref_aggregate_size : Int) (reference_aggregate : List Int) :
    Except String (List (List (List Int)) × List (List (List Int))) :=
  if in_aggregate_size.tmod rnn.plain_input_size ≠ 0 ∨
     ref_aggregate_size.tmod rnn.plain_output_size ≠ 0 then
    .error "Invalid input."
  else
    let training_pair_count := in_aggregate_size.tdiv rnn.plain_input_size
    if training_pair_count ≠ ref_aggregate_size.tdiv rnn.plain_output_size then
      .error "Invalid input."
    else
      let in_size := rnn.net.in_size
      let in_item_size := in_size.xyz.coord_prod
      let out_size := rnn.net.out_size
      let ref_item_size := out_size.xyz.coord_prod
      let input_lazy := (List.range training_pair_count.toNat).map fun pair_id =>
        DataConversionUtils.fill_lazy_vector in_item_size.toNat
          (input_aggregate.drop (pair_id * rnn.plain_input_size.toNat)) in_size.w.toNat
      let reference_lazy := (List.range training_pair_count.toNat).map fun pair_id =>
        DataConversionUtils.fill_lazy_vector ref_item_size.toNat
          (reference_aggregate.drop (pair_id * rnn.plain_output_size.toNat)) out_size.w.toNat
      .ok (input_lazy, reference_lazy)

end BAnalyzerNative

/-! ## Native boundary (src/BAnalyzerNativeDll/NetInterface.cpp)

A handle is `Option RNN`: `none` models the null pointer. -/

open BAnalyzerNative

/-- `RnnConstruct`: constructs an `RNN`; any failure is caught, the partial
allocation released, and the null sentinel (`none`) returned. -/
def RnnConstruct (time_depth : Int) (layer_item_sizes : List Int) : Option RNN :=
  match RNN.construct time_depth layer_item_sizes with
  | .ok r => some r
  | .error _ => none

/-- `RnnFree`: false for a null handle, true after deleting a valid one. -/
def RnnFree (net_ptr : Option RNN) : Bool :=
  match net_ptr with
  | none => false
  | some _ => true

/-- `RnnGetInputItemSize`: per-timestep input item size, or -1 for null. -/
def RnnGetInputItemSize (net_ptr : Option RNN) : Int :=
  match net_ptr with
  | some net => net.net.in_size.xyz.coord_prod
  | none => -1

/-- `RnnGetOutputItemSize`: per-timestep output item size, or -1 for null. -/
def RnnGetOutputItemSize (net_ptr : Option RNN) : Int :=
  match net_ptr with
  | some net => net.net.out_size.xyz.coord_prod
  | none => -1

/-- `RnnGetLayerCount`: number of layers, or -1 for null. -/
def RnnGetLayerCount (net_ptr : Option RNN) : Int :=
  match net_ptr with
  | some net => net.net.layer_count
  | none => -1

/-- `RnnGetDepth`: time depth (`in_size().w`), or -1 for null. -/
def RnnGetDepth (net_ptr : Option RNN) : Int :=
  match net_ptr with
  | some net => net.net.in_size.w
  | none => -1

/-- `RnnEvaluate`: false for a null handle; otherwise evaluates into a
thread-local output vector (empty before its first use) and hands
`(output.size(), output)` to the result callback.  The second component of the
result records the callback invocations of this call, in order; a thrown
evaluation is caught, skips the callback, and yields false. -/
def RnnEvaluate (net_ptr : Option RNN) (act : List (List Int) → List (List Int))
    (size : Int) (input : List Int) : Bool × List (Int × List Int) :=
  match net_ptr with
  | none => (false, [])
  | some net =>
    match net.evaluate act size input [] with
    | .ok output => (true, [((output.length : Int), output)])
    | .error _ => (false, [])

/-- `RnnBatchTrain`: false for a null handle; otherwise runs `RNN::train`,
catching any failure as false and reporting success as true. -/
def RnnBatchTrain (net_ptr : Option RNN) (in_aggregate_size : Int)
    (input_aggregate : List Int) (ref_aggregate_size : Int)
    (reference_aggregate : List Int) : Bool :=
  match net_ptr with
  | none => false
  | some net =>
    match net.train in_aggregate_size input_aggregate ref_aggregate_size
        reference_aggregate with
    | .ok _ => true
    | .error _ => false

/-! ## Helper lemmas for the codec -/

namespace BAnalyzerNative

/-- Packing the unpacked sequence of `n` chunks of `m` scalars concatenates the
chunks back, yielding the first `n * m` scalars of the source buffer. -/
theorem pack_fill_eq_take (m : Nat) (arr : List Int) (n : Nat) :
    DataConversionUtils.pack_lazy_vector (DataConversionUtils.fill_lazy_vector m arr n)
      = arr.take (n * m) := by
  induction n with
  | zero => simp [DataConversionUtils.pack_lazy_vector, DataConversionUtils.fill_lazy_vector]
  | succ k ih =>
    have h1 : DataConversionUtils.fill_lazy_vector m arr (k + 1)
        = DataConversionUtils.fill_lazy_vector m arr k ++ [(arr.drop (k * m)).take m] := by
      simp [DataConversionUtils.fill_lazy_vector, List.range_succ]
    simp only [DataConversionUtils.pack_lazy_vector] at ih ⊢
    rw [h1, List.flatten_append, ih, List.flatten_cons, List.flatten_nil, List.append_nil,
      ← List.take_add]
    congr 1
    ring

end BAnalyzerNative

/-- Element `i` of the unpacked sequence is the `i`-th contiguous chunk of the
source buffer. -/
theorem fill_lazy_vector_getD (m : Nat) (arr : List Int) (n i : Nat) (h : i < n) :
    (DataConversionUtils.fill_lazy_vector m arr n).getD i []
      = (arr.drop (i * m)).take m := by
  simp [DataConversionUtils.fill_lazy_vector, List.getD_eq_getElem?_getD,
    List.getElem?_map, List.getElem?_range, h]

/-- The unpacked sequence has exactly as many items as the destination. -/
theorem fill_lazy_vector_length (m : Nat) (arr : List Int) (n : Nat) :
    (DataConversionUtils.fill_lazy_vector m arr n).length = n := by
  simp [DataConversionUtils.fill_lazy_vector]

/-- C4: for every item size `itemSize > 0`, every sequence length `N`, and
every flat buffer of length `itemSize * N`, packing the sequence produced by
unpacking that buffer reproduces the original buffer exactly. -/
theorem pack_unpack_roundtrip (itemSize n : Nat) (buffer : List Int)
    (hpos : 0 < itemSize) (hlen : buffer.length = itemSize * n) :
    DataConversionUtils.pack_lazy_vector
      (DataConversionUtils.fill_lazy_vector itemSize buffer n) = buffer := by
  rw [pack_fill_eq_take, Nat.mul_comm, ← hlen, List.take_length]

/-- Witness for C4 at `itemSize = 2`, `N = 3`, buffer `[1, 2, 3, 4, 5, 6]`. -/
theorem pack_unpack_roundtrip_witness :
    0 < 2 ∧ ([1, 2, 3, 4, 5, 6] : List Int).length = 2 * 3 ∧
    DataConversionUtils.pack_lazy_vector
      (DataConversionUtils.fill_lazy_vector 2 [1, 2, 3, 4, 5, 6] 3) = [1, 2, 3, 4, 5, 6] :=
  ⟨by decide, by decide, pack_unpack_roundtrip 2 3 [1, 2, 3, 4, 5, 6] (by decide) (by decide)⟩

/-- C5: for a destination sequence of length `N`, an item size, and a flat
buffer holding at least `N * itemSize` values, unpack produces `N` items, item
`i` being exactly the `i`-th contiguous chunk of `itemSize` values of the
buffer. -/
theorem unpack_partitions_buffer (itemSize n : Nat) (buffer : List Int)
    (hlen : n * itemSize ≤ buffer.length) :
    (DataConversionUtils.fill_lazy_vector itemSize buffer n).length = n ∧
    ∀ i, i < n →
      (DataConversionUtils.fill_lazy_vector itemSize buffer n).getD i []
          = (buffer.drop (i * itemSize)).take itemSize ∧
      ((DataConversionUtils.fill_lazy_vector itemSize buffer n).getD i []).length
          = itemSize := by
  refine ⟨fill_lazy_vector_length itemSize buffer n, fun i hi => ⟨fill_lazy_vector_getD itemSize buffer n i hi, ?_⟩⟩
  rw [fill_lazy_vector_getD itemSize buffer n i hi]
  have hmul : (i + 1) * itemSize ≤ n * itemSize :=
    Nat.mul_le_mul_right itemSize (by omega)
  have hadd : i * itemSize + itemSize ≤ n * itemSize := by
    calc i * itemSize + itemSize = (i + 1) * itemSize := by ring
    _ ≤ n * itemSize := hmul
  simp only [List.length_take, List.length_drop]
  omega

/-- Witness for C5 at `itemSize = 2`, `N = 2`, buffer `[7, 8, 9, 10, 11]`. -/
theorem unpack_partitions_buffer_witness :
    2 * 2 ≤ ([7, 8, 9, 10, 11] : List Int).length ∧
    ((DataConversionUtils.fill_lazy_vector 2 [7, 8, 9, 10, 11] 2).length = 2 ∧
      ∀ i, i < 2 →
        (DataConversionUtils.fill_lazy_vector 2 [7, 8, 9, 10, 11] 2).getD i []
            = (([7, 8, 9, 10, 11] : List Int).drop (i * 2)).take 2 ∧
        ((DataConversionUtils.fill_lazy_vector 2 [7, 8, 9, 10, 11] 2).getD i []).length = 2) :=
  ⟨by decide, unpack_partitions_buffer 2 2 [7, 8, 9, 10, 11] (by decide)⟩

/-! ## Helper lemmas for construction -/

/-- The layer stack the construction loop builds when the remaining descriptor
elements are `rest` and the running input shape is `inS`: one layer per
element, each layer's input shape being the previous layer's output shape. -/
def layerChain (td : Int) (inS : Index4d) : List Int → List RMLayer
  | [] => []
  | s :: rest => ⟨inS, ⟨⟨1, 1, s⟩, td⟩⟩ :: layerChain td ⟨⟨1, 1, s⟩, td⟩ rest

/-- The construction fold appends exactly the layer chain of the remaining
descriptor elements. -/
theorem construct_foldl_net (td : Int) (rest : List Int) (net : MNet) (inS : Index4d) :
    (rest.foldl (fun acc sz => acc.1.append_layer acc.2 ⟨⟨1, 1, sz⟩, td⟩)
        (net, inS)).1 = ⟨net.layers ++ layerChain td inS rest⟩ := by
  induction rest generalizing net inS with
  | nil => simp [layerChain]
  | cons s t ih =>
    simp only [List.foldl_cons, layerChain]
    rw [ih]
    simp [MNet.append_layer]

theorem layerChain_length (td : Int) (inS : Index4d) (rest : List Int) :
    (layerChain td inS rest).length = rest.length := by
  induction rest generalizing inS with
  | nil => rfl
  | cons s t ih => simp [layerChain, ih]

theorem layerChain_getD_inSize_zero (td : Int) (inS : Index4d) (s : Int) (t : List Int)
    (d : RMLayer) : ((layerChain td inS (s :: t)).getD 0 d).inSize = inS := rfl

theorem layerChain_getD_outSize (td : Int) (inS : Index4d) (rest : List Int)
    (d : RMLayer) : ∀ j, j < rest.length →
      ((layerChain td inS rest).getD j d).outSize = ⟨⟨1, 1, rest.getD j 0⟩, td⟩ := by
  induction rest generalizing inS with
  | nil => intro j hj; simp at hj
  | cons s t ih =>
    intro j hj
    cases j with
    | zero => rfl
    | succ i =>
      simp only [layerChain, List.getD_cons_succ]
      exact ih _ i (by simpa using hj)

theorem layerChain_adjacent (td : Int) (inS : Index4d) (rest : List Int)
    (d : RMLayer) : ∀ j, j + 1 < rest.length →
      ((layerChain td inS rest).getD (j + 1) d).inSize
        = ((layerChain td inS rest).getD j d).outSize := by
  induction rest generalizing inS with
  | nil => intro j hj; simp at hj
  | cons s t ih =>
    intro j hj
    cases j with
    | zero =>
      cases t with
      | nil => simp at hj
      | cons a u => rfl
    | succ i =>
      simp only [layerChain, List.getD_cons_succ]
      exact ih _ i (by simpa using hj)

/-- The default value of `getLastD` is irrelevant on a nonempty list. -/
theorem getLastD_congr {α : Type} (l : List α) (h : l ≠ []) (x y : α) :
    l.getLastD x = l.getLastD y := by
  cases l with
  | nil => exact absurd rfl h
  | cons a t => rw [List.getLastD_cons, List.getLastD_cons]

theorem layerChain_getLastD_outSize (td : Int) (inS : Index4d) (rest : List Int)
    (d : RMLayer) (h : rest ≠ []) :
    ((layerChain td inS rest).getLastD d).outSize = ⟨⟨1, 1, rest.getLastD 0⟩, td⟩ := by
  induction rest generalizing inS d with
  | nil => exact absurd rfl h
  | cons s t ih =>
    cases t with
    | nil => rfl
    | cons a u =>
      show (((⟨inS, ⟨⟨1, 1, s⟩, td⟩⟩ : RMLayer) ::
          layerChain td ⟨⟨1, 1, s⟩, td⟩ (a :: u)).getLastD d).outSize = _
      rw [List.getLastD_cons,
        ih ⟨⟨1, 1, s⟩, td⟩ _ (by simp),
        getLastD_congr ((a : Int) :: u) (by simp) 0 s,
        ← List.getLastD_cons]

/-- Default layer used only as the out-of-domain value of `getD`. -/
def dummyLayer : RMLayer := ⟨dummyIndex4d, dummyIndex4d⟩

/-- The net a successful construction builds: the layer chain seeded with the
first descriptor element. -/
def constructedNet (td : Int) (l : List Int) : MNet :=
  ⟨layerChain td ⟨⟨1, 1, l.headD 0⟩, td⟩ (l.drop 1)⟩

/-- The RNN a successful construction returns. -/
def constructedRNN (td : Int) (l : List Int) : RNN :=
  { net := constructedNet td l,
    plain_input_size :=
      (constructedNet td l).in_size.xyz.coord_prod * (constructedNet td l).in_size.w,
    plain_output_size :=
      (constructedNet td l).out_size.xyz.coord_prod * (constructedNet td l).out_size.w }

/-- On a descriptor of length at least 2, construction succeeds and returns
exactly the chained layer stack with its cached plain sizes. -/
theorem construct_eq (td : Int) (l : List Int) (hlen : 2 ≤ l.length) :
    RNN.construct td l = .ok (constructedRNN td l) := by
  have hnl : ¬ l.length < 2 := by omega
  simp only [RNN.construct, if_neg hnl]
  rw [construct_foldl_net td (l.drop 1) ⟨[]⟩ ⟨⟨1, 1, l.headD 0⟩, td⟩]
  simp [constructedRNN, constructedNet]

theorem constructedNet_in_size (td : Int) (l : List Int) (hlen : 2 ≤ l.length) :
    (constructedNet td l).in_size = ⟨⟨1, 1, l.headD 0⟩, td⟩ := by
  cases l with
  | nil => simp at hlen
  | cons a t =>
    cases t with
    | nil => simp at hlen
    | cons b u => rfl

theorem constructedNet_out_size (td : Int) (l : List Int) (hlen : 2 ≤ l.length) :
    (constructedNet td l).out_size = ⟨⟨1, 1, l.getLastD 0⟩, td⟩ := by
  cases l with
  | nil => simp at hlen
  | cons a t =>
    cases t with
    | nil => simp at hlen
    | cons b u =>
      have h1 : (constructedNet td (a :: b :: u)).out_size
          = ((layerChain td ⟨⟨1, 1, a⟩, td⟩ (b :: u)).getLastD dummyLayer).outSize := rfl
      have h2 : ((a : Int) :: b :: u).getLastD 0 = ((b : Int) :: u).getLastD 0 := by
        rw [List.getLastD_cons]
        exact getLastD_congr _ (by simp) a 0
      rw [h1, layerChain_getLastD_outSize td _ _ _ (by simp), h2]

theorem constructedRNN_plain_input (td : Int) (l : List Int) (hlen : 2 ≤ l.length) :
    (constructedRNN td l).plain_input_size = l.headD 0 * td := by
  show (constructedNet td l).in_size.xyz.coord_prod * (constructedNet td l).in_size.w
      = l.headD 0 * td
  rw [constructedNet_in_size td l hlen]
  simp [Index3d.coord_prod]

theorem constructedRNN_plain_output (td : Int) (l : List Int) (hlen : 2 ≤ l.length) :
    (constructedRNN td l).plain_output_size = l.getLastD 0 * td := by
  show (constructedNet td l).out_size.xyz.coord_prod * (constructedNet td l).out_size.w
      = l.getLastD 0 * td
  rw [constructedNet_out_size td l hlen]
  simp [Index3d.coord_prod]

/-- C1: for every shape descriptor of length at least 2 with positive entries
and every positive time depth, construction succeeds, appends one recurrent
layer per descriptor element from index 1 onward (layer `j` outputs the shape
of descriptor element `j + 1`, and each layer's input shape is the previous
layer's output shape, the first layer taking the initial descriptor element),
and the cached plain input/output sizes are the first/last descriptor elements
multiplied by the time depth. -/
theorem construct_builds_stack (td : Int) (l : List Int) (htd : 0 < td)
    (hpos : ∀ s ∈ l, 0 < s) (hlen : 2 ≤ l.length) :
    ∃ rnn, RNN.construct td l = .ok rnn ∧
      rnn.net.layers.length = l.length - 1 ∧
      (rnn.net.layers.getD 0 dummyLayer).inSize = ⟨⟨1, 1, l.headD 0⟩, td⟩ ∧
      (∀ j, j + 1 < rnn.net.layers.length →
        (rnn.net.layers.getD (j + 1) dummyLayer).inSize
          = (rnn.net.layers.getD j dummyLayer).outSize) ∧
      (∀ j, j < rnn.net.layers.length →
        (rnn.net.layers.getD j dummyLayer).outSize
          = ⟨⟨1, 1, (l.drop 1).getD j 0⟩, td⟩) ∧
      rnn.plain_input_size = l.headD 0 * td ∧
      rnn.plain_output_size = l.getLastD 0 * td := by
  refine ⟨constructedRNN td l, construct_eq td l hlen, ?_, ?_, ?_, ?_,
    constructedRNN_plain_input td l hlen, constructedRNN_plain_output td l hlen⟩
  · show (layerChain td ⟨⟨1, 1, l.headD 0⟩, td⟩ (l.drop 1)).length = l.length - 1
    rw [layerChain_length]
    simp
  · cases l with
    | nil => simp at hlen
    | cons a t =>
      cases t with
      | nil => simp at hlen
      | cons b u => rfl
  · intro j hj
    have hj2 : j + 1 < (l.drop 1).length := by
      have : (constructedRNN td l).net.layers.length = (l.drop 1).length := by
        show (layerChain td ⟨⟨1, 1, l.headD 0⟩, td⟩ (l.drop 1)).length = _
        rw [layerChain_length]
      omega
    exact layerChain_adjacent td ⟨⟨1, 1, l.headD 0⟩, td⟩ (l.drop 1) dummyLayer j hj2
  · intro j hj
    have hj2 : j < (l.drop 1).length := by
      have : (constructedRNN td l).net.layers.length = (l.drop 1).length := by
        show (layerChain td ⟨⟨1, 1, l.headD 0⟩, td⟩ (l.drop 1)).length = _
        rw [layerChain_length]
      omega
    exact layerChain_getD_outSize td ⟨⟨1, 1, l.headD 0⟩, td⟩ (l.drop 1) dummyLayer j hj2

/-- Witness for C1 at time depth 2 and descriptor `[3, 4]`. -/
theorem construct_builds_stack_witness :
    (0 : Int) < 2 ∧ (∀ s ∈ ([3, 4] : List Int), 0 < s) ∧ 2 ≤ ([3, 4] : List Int).length ∧
    (∃ rnn, RNN.construct 2 [3, 4] = .ok rnn ∧
      rnn.net.layers.length = ([3, 4] : List Int).length - 1 ∧
      (rnn.net.layers.getD 0 dummyLayer).inSize = ⟨⟨1, 1, ([3, 4] : List Int).headD 0⟩, 2⟩ ∧
      (∀ j, j + 1 < rnn.net.layers.length →
        (rnn.net.layers.getD (j + 1) dummyLayer).inSize
          = (rnn.net.layers.getD j dummyLayer).outSize) ∧
      (∀ j, j < rnn.net.layers.length →
        (rnn.net.layers.getD j dummyLayer).outSize
          = ⟨⟨1, 1, (([3, 4] : List Int).drop 1).getD j 0⟩, 2⟩) ∧
      rnn.plain_input_size = ([3, 4] : List Int).headD 0 * 2 ∧
      rnn.plain_output_size = ([3, 4] : List Int).getLastD 0 * 2) :=
  ⟨by decide, by decide, by decide,
    construct_builds_stack 2 [3, 4] (by decide) (by decide) (by decide)⟩

/-- C6: for every time depth and every shape descriptor of length < 2,
construction always fails with the construction error before building any
layer, and at the native boundary `RnnConstruct` catches the failure and
returns the null sentinel (`none`) instead of propagating the fault (the
partial allocation is released by the boundary handler; in this embedding no
constructed value exists at all). -/
theorem construct_short_descriptor (td : Int) (l : List Int) (h : l.length < 2) :
    RNN.construct td l = .error "Can't construct the net." ∧
    RnnConstruct td l = none := by
  have h1 : RNN.construct td l = .error "Can't construct the net." := by
    simp only [RNN.construct, if_pos h]
  exact ⟨h1, by simp only [RnnConstruct, h1]⟩

/-- Witness for C6 at time depth 3 and the one-element descriptor `[5]`. -/
theorem construct_short_descriptor_witness :
    ([5] : List Int).length < 2 ∧
    (RNN.construct 3 [5] = .error "Can't construct the net." ∧
      RnnConstruct 3 [5] = none) :=
  ⟨by decide, construct_short_descriptor 3 [5] (by decide)⟩

/-- A sample constructed network (time depth 2, descriptor `[3, 4]`), used by
the concrete witnesses below; it is exactly what `RnnConstruct 2 [3, 4]`
returns. -/
def rnn0 : RNN :=
  { net := ⟨[⟨⟨⟨1, 1, 3⟩, 2⟩, ⟨⟨1, 1, 4⟩, 2⟩⟩]⟩,
    plain_input_size := 6,
    plain_output_size := 8 }

theorem rnn0_eq_construct : RnnConstruct 2 [3, 4] = some rnn0 := by decide

/-- C2: every call of `evaluate` whose size differs from the cached plain
input size, and every call of `train` failing any of the three shape checks
(either aggregate size not an exact multiple of its plain item size, or
differing implied pair counts), is rejected up front: the operation returns
the shape error and produces nothing — in this embedding the error result
carries no unpacked batch and no learning-step invocation, rendering the
zero-mutation / zero-partial-work guarantee (evaluate is `const`; train's
single `learn` call happens only on the `.ok` branch). -/
theorem shape_checks_reject (rnn : RNN) (act : List (List Int) → List (List Int))
    (size : Int) (input output : List Int) (inA refA : Int)
    (inputA refAgg : List Int) :
    (size ≠ rnn.plain_input_size →
      rnn.evaluate act size input output = .error "Invalid input data.") ∧
    ((inA.tmod rnn.plain_input_size ≠ 0 ∨ refA.tmod rnn.plain_output_size ≠ 0 ∨
        inA.tdiv rnn.plain_input_size ≠ refA.tdiv rnn.plain_output_size) →
      rnn.train inA inputA refA refAgg = .error "Invalid input.") := by
  constructor
  · intro h
    simp only [RNN.evaluate, if_pos h]
  · intro h
    rcases h with h | h | h
    · simp only [RNN.train, if_pos (Or.inl h)]
    · simp only [RNN.train, if_pos (Or.inr h)]
    · by_cases hm : inA.tmod rnn.plain_input_size ≠ 0 ∨ refA.tmod rnn.plain_output_size ≠ 0
      · simp only [RNN.train, if_pos hm]
      · simp only [RNN.train, if_neg hm, if_pos h]

/-- Witness for C2 on the sample network: `evaluate` with size 5 (plain input
size is 6) and `train` with aggregate sizes 7 and 8. -/
theorem shape_checks_reject_witness :
    rnn0.evaluate (fun x => x) 5 [1, 2, 3, 4, 5] [] = .error "Invalid input data." ∧
    rnn0.train 7 [] 8 [] = .error "Invalid input." :=
  ⟨(shape_checks_reject rnn0 (fun x => x) 5 [1, 2, 3, 4, 5] [] 7 8 [] []).1 (by decide),
    (shape_checks_reject rnn0 (fun x => x) 5 [1, 2, 3, 4, 5] [] 7 8 [] []).2
      (Or.inl (by decide))⟩

/-- C3: for aggregates passing validation with `k` implied pairs, `train`
splits them into `k` aligned (input, reference) tensor-sequence pairs, where
pair `i`'s input flattens back to the slice of the input aggregate at offset
`i * plain_input_size` of length `plain_input_size`, pair `i`'s reference
flattens back to the slice of the reference aggregate at offset
`i * plain_output_size` of length `plain_output_size`, in matching order, and
hands exactly this one batch to the single learning step.  The two `hwf`
hypotheses record the construction invariant that the cached plain sizes are
the per-timestep item sizes times the time depth. -/
theorem train_splits_into_pairs (rnn : RNN) (k inA refA : Int)
    (input reference : List Int)
    (hpIn : 0 < rnn.plain_input_size) (hpOut : 0 < rnn.plain_output_size)
    (hwfIn : rnn.net.in_size.xyz.coord_prod.toNat * rnn.net.in_size.w.toNat
        = rnn.plain_input_size.toNat)
    (hwfOut : rnn.net.out_size.xyz.coord_prod.toNat * rnn.net.out_size.w.toNat
        = rnn.plain_output_size.toNat)
    (hin : inA = k * rnn.plain_input_size) (href : refA = k * rnn.plain_output_size) :
    ∃ A B, rnn.train inA input refA reference = .ok (A, B) ∧
      A.length = k.toNat ∧ B.length = k.toNat ∧
      ∀ i, i < k.toNat →
        DataConversionUtils.pack_lazy_vector (A.getD i [])
            = (input.drop (i * rnn.plain_input_size.toNat)).take
                rnn.plain_input_size.toNat ∧
        DataConversionUtils.pack_lazy_vector (B.getD i [])
            = (reference.drop (i * rnn.plain_output_size.toNat)).take
                rnn.plain_output_size.toNat := by
  have hmod_in : inA.tmod rnn.plain_input_size = 0 := by
    rw [hin]; exact Int.mul_tmod_left k rnn.plain_input_size
  have hmod_out : refA.tmod rnn.plain_output_size = 0 := by
    rw [href]; exact Int.mul_tmod_left k rnn.plain_output_size
  have hdiv_in : inA.tdiv rnn.plain_input_size = k := by
    rw [hin]; exact Int.mul_tdiv_cancel k (ne_of_gt hpIn)
  have hdiv_out : refA.tdiv rnn.plain_output_size = k := by
    rw [href]; exact Int.mul_tdiv_cancel k (ne_of_gt hpOut)
  refine ⟨(List.range k.toNat).map (fun pair_id =>
      DataConversionUtils.fill_lazy_vector rnn.net.in_size.xyz.coord_prod.toNat
        (input.drop (pair_id * rnn.plain_input_size.toNat)) rnn.net.in_size.w.toNat),
    (List.range k.toNat).map (fun pair_id =>
      DataConversionUtils.fill_lazy_vector rnn.net.out_size.xyz.coord_prod.toNat
        (reference.drop (pair_id * rnn.plain_output_size.toNat)) rnn.net.out_size.w.toNat),
    ?_, by simp, by simp, ?_⟩
  · simp only [RNN.train]
    rw [hmod_in, hmod_out, hdiv_in, hdiv_out]
    simp
  · intro i hi
    constructor
    · have hA : ((List.range k.toNat).map (fun pair_id =>
          DataConversionUtils.fill_lazy_vector rnn.net.in_size.xyz.coord_prod.toNat
            (input.drop (pair_id * rnn.plain_input_size.toNat))
            rnn.net.in_size.w.toNat)).getD i []
          = DataConversionUtils.fill_lazy_vector rnn.net.in_size.xyz.coord_prod.toNat
              (input.drop (i * rnn.plain_input_size.toNat)) rnn.net.in_size.w.toNat := by
        simp [List.getD_eq_getElem?_getD, List.getElem?_map, List.getElem?_range, hi]
      rw [hA, pack_fill_eq_take, Nat.mul_comm, hwfIn]
    · have hB : ((List.range k.toNat).map (fun pair_id =>
          DataConversionUtils.fill_lazy_vector rnn.net.out_size.xyz.coord_prod.toNat
            (reference.drop (pair_id * rnn.plain_output_size.toNat))
            rnn.net.out_size.w.toNat)).getD i []
          = DataConversionUtils.fill_lazy_vector rnn.net.out_size.xyz.coord_prod.toNat
              (reference.drop (i * rnn.plain_output_size.toNat))
              rnn.net.out_size.w.toNat := by
        simp [List.getD_eq_getElem?_getD, List.getElem?_map, List.getElem?_range, hi]
      rw [hB, pack_fill_eq_take, Nat.mul_comm, hwfOut]

/-- Witness for C3 on the sample network with `k = 2` pairs: input aggregate of
12 values, reference aggregate of 16 values. -/
theorem train_splits_into_pairs_witness :
    (0 : Int) < rnn0.plain_input_size ∧ (0 : Int) < rnn0.plain_output_size ∧
    rnn0.net.in_size.xyz.coord_prod.toNat * rnn0.net.in_size.w.toNat
        = rnn0.plain_input_size.toNat ∧
    rnn0.net.out_size.xyz.coord_prod.toNat * rnn0.net.out_size.w.toNat
        = rnn0.plain_output_size.toNat ∧
    (12 : Int) = 2 * rnn0.plain_input_size ∧ (16 : Int) = 2 * rnn0.plain_output_size ∧
    (∃ A B, rnn0.train 12 [1, 2, 3, 4, 5, 6, 7, 8, 9, 10, 11, 12] 16
          [1, 2, 3, 4, 5, 6, 7, 8, 9, 10, 11, 12, 13, 14, 15, 16] = .ok (A, B) ∧
      A.length = (2 : Int).toNat ∧ B.length = (2 : Int).toNat ∧
      ∀ i, i < (2 : Int).toNat →
        DataConversionUtils.pack_lazy_vector (A.getD i [])
            = (([1, 2, 3, 4, 5, 6, 7, 8, 9, 10, 11, 12] : List Int).drop
                (i * rnn0.plain_input_size.toNat)).take rnn0.plain_input_size.toNat ∧
        DataConversionUtils.pack_lazy_vector (B.getD i [])
            = (([1, 2, 3, 4, 5, 6, 7, 8, 9, 10, 11, 12, 13, 14, 15, 16] : List Int).drop
                (i * rnn0.plain_output_size.toNat)).take rnn0.plain_output_size.toNat) :=
  ⟨by decide, by decide, by decide, by decide, by decide, by decide,
    train_splits_into_pairs rnn0 2 12 16 [1, 2, 3, 4, 5, 6, 7, 8, 9, 10, 11, 12]
      [1, 2, 3, 4, 5, 6, 7, 8, 9, 10, 11, 12, 13, 14, 15, 16]
      (by decide) (by decide) (by decide) (by decide) (by decide) (by decide)⟩

/-- The output container, resized to `n` and then written through, has length
exactly `n`. -/
theorem listOverwrite_listResize_length (buf data : List Int) (n : Nat) :
    (listOverwrite (listResize buf n) data).length = n := by
  simp only [listOverwrite, listResize, List.length_append, List.length_take,
    List.length_drop, List.length_replicate]
  omega

/-- C7: for a non-null handle and an input size equal to the plain input size,
`RnnEvaluate` returns true and invokes the result callback exactly once,
synchronously, with an output of length exactly the plain output size (the
invocation list of the call holds this single `(length, buffer)` entry); a
null handle yields false with no invocation, and every call invokes the
callback at most once. -/
theorem rnn_evaluate_callback_once (rnn : RNN)
    (act : List (List Int) → List (List Int)) (size : Int) (input : List Int)
    (hsize : size = rnn.plain_input_size) (hout : 0 ≤ rnn.plain_output_size) :
    (∃ out, RnnEvaluate (some rnn) act size input
        = (true, [(rnn.plain_output_size, out)]) ∧
      (out.length : Int) = rnn.plain_output_size) ∧
    RnnEvaluate none act size input = (false, []) ∧
    ∀ h : Option RNN, (RnnEvaluate h act size input).2.length ≤ 1 := by
  subst hsize
  have heval : rnn.evaluate act rnn.plain_input_size input []
      = .ok (listOverwrite (listResize [] rnn.plain_output_size.toNat)
          (DataConversionUtils.pack_lazy_vector (act
            (DataConversionUtils.fill_lazy_vector rnn.net.in_size.xyz.coord_prod.toNat
              input rnn.net.in_size.w.toNat)))) := by
    simp only [RNN.evaluate, ne_eq, not_true_eq_false, if_neg]
    simp
  have hlen : (listOverwrite (listResize [] rnn.plain_output_size.toNat)
      (DataConversionUtils.pack_lazy_vector (act
        (DataConversionUtils.fill_lazy_vector rnn.net.in_size.xyz.coord_prod.toNat
          input rnn.net.in_size.w.toNat)))).length = rnn.plain_output_size.toNat :=
    listOverwrite_listResize_length _ _ _
  refine ⟨⟨listOverwrite (listResize [] rnn.plain_output_size.toNat)
      (DataConversionUtils.pack_lazy_vector (act
        (DataConversionUtils.fill_lazy_vector rnn.net.in_size.xyz.coord_prod.toNat
          input rnn.net.in_size.w.toNat))), ?_, ?_⟩, rfl, ?_⟩
  · show RnnEvaluate (some rnn) act rnn.plain_input_size input = _
    simp only [RnnEvaluate, heval]
    rw [hlen, Int.toNat_of_nonneg hout]
  · rw [hlen, Int.toNat_of_nonneg hout]
  · intro h
    cases h with
    | none => simp [RnnEvaluate]
    | some net =>
      simp only [RnnEvaluate]
      cases hE : net.evaluate act rnn.plain_input_size input [] <;> simp

/-- Witness for C7 on the sample network: a 6-element input returns true with
one callback invocation carrying an 8-element output. -/
theorem rnn_evaluate_callback_once_witness :
    (6 : Int) = rnn0.plain_input_size ∧ (0 : Int) ≤ rnn0.plain_output_size ∧
    ((∃ out, RnnEvaluate (some rnn0) (fun x => x) 6 [1, 2, 3, 4, 5, 6]
        = (true, [(rnn0.plain_output_size, out)]) ∧
      (out.length : Int) = rnn0.plain_output_size) ∧
    RnnEvaluate none (fun x => x) 6 [1, 2, 3, 4, 5, 6] = (false, []) ∧
    ∀ h : Option RNN, (RnnEvaluate h (fun x => x) 6 [1, 2, 3, 4, 5, 6]).2.length ≤ 1) :=
  ⟨by decide, by decide,
    rnn_evaluate_callback_once rnn0 (fun x => x) 6 [1, 2, 3, 4, 5, 6]
      (by decide) (by decide)⟩

/-- C8: every boundary operation on a null handle fails closed: `RnnFree`
returns false, the four getters return -1, `RnnEvaluate` returns false without
ever invoking the callback, and `RnnBatchTrain` returns false; no state is
mutated (the functions are pure and receive no network to mutate). -/
theorem null_handle_fails_closed (act : List (List Int) → List (List Int))
    (size inA refA : Int) (input inputA refAgg : List Int) :
    RnnFree none = false ∧ RnnGetInputItemSize none = -1 ∧
    RnnGetOutputItemSize none = -1 ∧ RnnGetLayerCount none = -1 ∧
    RnnGetDepth none = -1 ∧ RnnEvaluate none act size input = (false, []) ∧
    RnnBatchTrain none inA inputA refA refAgg = false :=
  ⟨rfl, rfl, rfl, rfl, rfl, rfl, rfl⟩

/-- C9: for a successfully constructed network, `RnnGetInputItemSize` returns
only the per-timestep input item size (descriptor element 0),
`RnnGetOutputItemSize` the per-timestep output item size (last descriptor
element), and `RnnGetDepth` the time depth, so the products
`RnnGetInputItemSize * RnnGetDepth` and `RnnGetOutputItemSize * RnnGetDepth`
— not the item sizes alone — equal the cached plain input/output sizes that
`evaluate` and `train` validate against. -/
theorem getters_item_times_depth (td : Int) (l : List Int) (rnn : RNN)
    (hlen : 2 ≤ l.length) (hok : RNN.construct td l = .ok rnn) :
    RnnGetInputItemSize (some rnn) = l.headD 0 ∧
    RnnGetOutputItemSize (some rnn) = l.getLastD 0 ∧
    RnnGetDepth (some rnn) = td ∧
    RnnGetInputItemSize (some rnn) * RnnGetDepth (some rnn) = rnn.plain_input_size ∧
    RnnGetOutputItemSize (some rnn) * RnnGetDepth (some rnn) = rnn.plain_output_size := by
  have h := (construct_eq td l hlen).symm.trans hok
  have hr : constructedRNN td l = rnn := by
    injection h
  subst hr
  refine ⟨?_, ?_, ?_, rfl, ?_⟩
  · show (constructedNet td l).in_size.xyz.coord_prod = l.headD 0
    rw [constructedNet_in_size td l hlen]
    simp [Index3d.coord_prod]
  · show (constructedNet td l).out_size.xyz.coord_prod = l.getLastD 0
    rw [constructedNet_out_size td l hlen]
    simp [Index3d.coord_prod]
  · show (constructedNet td l).in_size.w = td
    rw [constructedNet_in_size td l hlen]
  · show (constructedNet td l).out_size.xyz.coord_prod * (constructedNet td l).in_size.w
        = (constructedNet td l).out_size.xyz.coord_prod * (constructedNet td l).out_size.w
    rw [constructedNet_in_size td l hlen, constructedNet_out_size td l hlen]

/-- Witness for C9 on the sample network (descriptor `[3, 4]`, depth 2). -/
theorem getters_item_times_depth_witness :
    2 ≤ ([3, 4] : List Int).length ∧ RNN.construct 2 [3, 4] = .ok rnn0 ∧
    (RnnGetInputItemSize (some rnn0) = ([3, 4] : List Int).headD 0 ∧
      RnnGetOutputItemSize (some rnn0) = ([3, 4] : List Int).getLastD 0 ∧
      RnnGetDepth (some rnn0) = 2 ∧
      RnnGetInputItemSize (some rnn0) * RnnGetDepth (some rnn0) = rnn0.plain_input_size ∧
      RnnGetOutputItemSize (some rnn0) * RnnGetDepth (some rnn0) = rnn0.plain_output_size) :=
  ⟨by decide, by rfl,
    getters_item_times_depth 2 [3, 4] rnn0 (by decide) (by rfl)⟩

/-- C10: `train` called with both aggregate sizes equal to zero passes all
three shape checks (zero is an exact multiple of any positive plain item size
and both implied pair counts are zero), so it does not fail but performs one
learning step over an empty batch, and `RnnBatchTrain` returns true. -/
theorem train_empty_batch (rnn : RNN) (input reference : List Int)
    (hpIn : 0 < rnn.plain_input_size) (hpOut : 0 < rnn.plain_output_size) :
    rnn.train 0 input 0 reference = .ok ([], []) ∧
    RnnBatchTrain (some rnn) 0 input 0 reference = true := by
  have h : rnn.train 0 input 0 reference = .ok ([], []) := by
    simp [RNN.train, Int.zero_tmod, Int.zero_tdiv]
  exact ⟨h, by simp [RnnBatchTrain, h]⟩

/-- Witness for C10 on the sample network. -/
theorem train_empty_batch_witness :
    (0 : Int) < rnn0.plain_input_size ∧ (0 : Int) < rnn0.plain_output_size ∧
    (rnn0.train 0 [] 0 [] = .ok ([], []) ∧
      RnnBatchTrain (some rnn0) 0 [] 0 [] = true) :=
  ⟨by decide, by decide, train_empty_batch rnn0 [] [] (by decide) (by decide)⟩
